import Mathlib

/-
  Verification development for the claude-code-router gateway.

  The definitions below are a shallow embedding of the TypeScript sources:
    - src/utils/index.ts   (readConfigFile, writeConfigFile)
    - src/index.ts         (run: provider registration, LRU client cache,
                            getProviderInstance, middleware pipeline,
                            the POST /v1/messages handler)
  Machine-level details that the claims do not touch (HTTP transport,
  process lifecycle, the proxy agent options) are abstracted away; the
  control flow and data flow of the embedded functions follow the source
  line by line.
-/

namespace ClaudeCodeRouter

/-- JavaScript truthiness of an optional string value: `undefined` and the
empty string are falsy, every other string is truthy. -/
def truthy : Option String → Bool
  | none => false
  | some s => !s.isEmpty

/-- The JavaScript expression `x || "default"` on an optional string, as used
in the /v1/messages handler for `req.provider || "default"`. -/
def jsOrDefault : Option String → String
  | none => "default"
  | some s => if s.isEmpty then "default" else s

/-- A configured model provider, from the `ModelProvider` interface in
src/index.ts: name, api_base_url, api_key, models. -/
structure ModelProvider where
  name : String
  api_base_url : String
  api_key : String
  models : List String
deriving DecidableEq, Repr

/-- The `Router` section of the configuration: the three non-default routing
rules, each optionally present (a `provider,model` string). -/
structure RouterConfig where
  background : Option String
  think : Option String
  longContext : Option String
deriving DecidableEq, Repr

/-- The configuration object consumed by `run` (src/index.ts): the single
OPENAI triple, the optional `Providers` array (`none` models a value that is
not an array, matching the `Array.isArray` guard), and the optional `Router`
section. -/
structure Config where
  OPENAI_API_KEY : Option String
  OPENAI_BASE_URL : Option String
  OPENAI_MODEL : Option String
  Providers : Option (List ModelProvider)
  Router : Option RouterConfig
deriving DecidableEq, Repr

/-- JavaScript `Map.prototype.set` on an insertion-ordered association list:
if the key is present its value is updated in place (insertion position
kept), otherwise the pair is appended at the end. -/
def mapSet (m : List (String × ModelProvider)) (k : String) (v : ModelProvider) :
    List (String × ModelProvider) :=
  match m with
  | [] => [(k, v)]
  | e :: rest => if e.1 == k then (k, v) :: rest else e :: mapSet rest k v

/-- JavaScript `Map.prototype.get`: the value at the first matching key, or
`none` (modelling `undefined`). -/
def mapGet (m : List (String × ModelProvider)) (k : String) : Option ModelProvider :=
  (m.find? (fun e => e.1 == k)).map Prod.snd

/-- The `Providers` registration loop of `run` (src/index.ts): when the
configuration has a `Providers` array, every provider is inserted into the
`Providers` map under its own `name`. -/
def registerConfigProviders (c : Config) : List (String × ModelProvider) :=
  match c.Providers with
  | some ps => ps.foldl (fun m p => mapSet m p.name p) []
  | none => []

/-- The guard `config.OPENAI_API_KEY && config.OPENAI_BASE_URL &&
config.OPENAI_MODEL` of `run`. -/
def tripleConfigured (c : Config) : Bool :=
  truthy c.OPENAI_API_KEY && truthy c.OPENAI_BASE_URL && truthy c.OPENAI_MODEL

/-- The provider record built from the OPENAI triple in `run`: name
"default", the configured base URL and key, and the single configured model. -/
def defaultTripleProvider (c : Config) : ModelProvider :=
  { name := "default"
    api_base_url := c.OPENAI_BASE_URL.getD ""
    api_key := c.OPENAI_API_KEY.getD ""
    models := [c.OPENAI_MODEL.getD ""] }

/-- The full provider-registry construction of `run`: register the
`Providers` array, then either register the triple-built provider under
"default", or, when the triple is not fully configured and the map is
nonempty, alias the first registered provider (the first value in insertion
order, `Providers.values().next().value`) under "default". -/
def buildProviders (c : Config) : List (String × ModelProvider) :=
  let m := registerConfigProviders c
  if tripleConfigured c then
    mapSet m "default" (defaultTripleProvider c)
  else
    match m.head? with
    | some kv => mapSet m "default" kv.2
    | none => m

/-- The middleware stages installed by `run`, as tags in registration
order: the config-attaching hook, rewriteBody, either the router middleware
or the inline default-assigning middleware, and formatRequest. -/
inductive Stage where
  | attachConfig
  | rewriteBody
  | routerStage
  | defaultRoute
  | formatRequest
deriving DecidableEq, Repr

/-- The guard `config.Router?.background && config.Router?.think &&
config?.Router?.longContext` of `run`: all three non-default routing rules
present and truthy. -/
def routerComplete (c : Config) : Bool :=
  match c.Router with
  | none => false
  | some r => truthy r.background && truthy r.think && truthy r.longContext

/-- The middleware stack registered by `run`, in order: the config hook,
rewriteBody, then the router middleware when the three rules are complete or
the inline default middleware otherwise, then formatRequest. -/
def middlewareStack (c : Config) : List Stage :=
  [Stage.attachConfig, Stage.rewriteBody]
    ++ (if routerComplete c then [Stage.routerStage] else [Stage.defaultRoute])
    ++ [Stage.formatRequest]

/-- The per-request state touched by the inline default middleware:
`req.body.model`, `req.provider`, and request flags (which the middleware
never reads). -/
structure Request where
  model : Option String
  provider : Option String
  backgroundFlag : Bool
  thinkFlag : Bool
deriving DecidableEq, Repr

/-- The inline middleware of `run` used when the routing rules are
incomplete: `req.provider = "default"; req.body.model = config.OPENAI_MODEL`. -/
def defaultRouteMiddleware (c : Config) (req : Request) : Request :=
  { req with provider := some "default", model := c.OPENAI_MODEL }

/-- A live OpenAI client handle, as constructed by `new OpenAI({...})` in
`getProviderInstance`. The `id` field models object identity: every
construction yields a fresh id, so two handles are the same instance exactly
when their ids agree. -/
structure OpenAIClient where
  id : Nat
  baseURL : String
  apiKey : String
deriving DecidableEq, Repr

/-- One entry of the `providerCache` LRU cache: key (the provider record's
`name`), the cached client handle, and the time (ms) at which the entry was
set (lru-cache measures TTL from the set time). -/
structure CacheEntry where
  key : String
  client : OpenAIClient
  start : Nat
deriving DecidableEq, Repr

/-- The mutable state around `getProviderInstance`: the `providerCache`
entries in recency order (most recently used first) and a counter supplying
fresh handle identities. -/
structure CacheState where
  entries : List CacheEntry
  nextId : Nat
deriving DecidableEq, Repr

/-- The `max: 10` option of the providerCache. -/
def cacheMax : Nat := 10

/-- The `ttl: 2 * 60 * 60 * 1000` option of the providerCache (two hours in
milliseconds). -/
def cacheTTL : Nat := 2 * 60 * 60 * 1000

/-- lru-cache staleness: an entry is stale when more than `ttl` milliseconds
have passed since it was set (gets do not refresh the age: `updateAgeOnGet`
is left at its default `false`). -/
def isStale (now : Nat) (e : CacheEntry) : Bool :=
  decide (cacheTTL < now - e.start)

/-- lru-cache `get`: a present, non-stale entry is returned and moved to the
most-recently-used position; a stale entry is deleted and `none` is returned
(`noDeleteOnStaleGet` at its default); a missing key returns `none`. -/
def cacheGet (st : CacheState) (k : String) (now : Nat) :
    Option OpenAIClient × CacheState :=
  match st.entries.find? (fun e => e.key == k) with
  | none => (none, st)
  | some e =>
    if isStale now e then
      (none, { st with entries := st.entries.filter (fun e2 => e2.key != k) })
    else
      (some e.client,
        { st with entries := e :: st.entries.filter (fun e2 => e2.key != k) })

/-- lru-cache `set`: insert (or re-insert) the entry at the
most-recently-used position with a fresh start time, then truncate to the
capacity bound, evicting from the least-recently-used end. -/
def cacheSet (st : CacheState) (k : String) (v : OpenAIClient) (now : Nat) :
    CacheState :=
  let rest := st.entries.filter (fun e => e.key != k)
  { st with entries := ({ key := k, client := v, start := now } :: rest).take cacheMax }

/-- `getProviderInstance` of src/index.ts: look the name up in the
`Providers` map and throw (here: `Except.error`) with message
"Provider NAME not found" when it is absent; otherwise consult the cache
under the provider record's `name` field, and on a miss construct a fresh
client from the record's base URL and key and cache it. -/
def getProviderInstance (registry : List (String × ModelProvider))
    (st : CacheState) (providerName : String) (now : Nat) :
    Except String (OpenAIClient × CacheState) :=
  match mapGet registry providerName with
  | none => .error ("Provider " ++ providerName ++ " not found")
  | some provider =>
    match cacheGet st provider.name now with
    | (some client, st2) => .ok (client, st2)
    | (none, st2) =>
      let client : OpenAIClient :=
        { id := st2.nextId
          baseURL := provider.api_base_url
          apiKey := provider.api_key }
      .ok (client, { cacheSet st2 provider.name client now with nextId := st2.nextId + 1 })

/-- Outcome of the POST /v1/messages handler for one request. The handler
wraps its whole body in try/catch; the catch block only logs to
console.error and never writes to `res`, so a caught error produces
`loggedErrorNoResponse` (the connection is left without a reply). There is
no crash outcome: every throw is caught. -/
inductive HandlerOutcome where
  | responded (model : Option String)
  | loggedErrorNoResponse (msg : String)
deriving DecidableEq, Repr

/-- The POST /v1/messages handler of `run`: resolve
`req.provider || "default"` through `getProviderInstance`, invoke the
backend (abstracted as a fallible function of the client and request), and
stream the result; any error thrown along the way is caught, logged, and no
response is written. -/
def postMessagesHandler (registry : List (String × ModelProvider))
    (st : CacheState) (req : Request)
    (backend : OpenAIClient → Request → Except String Unit) (now : Nat) :
    HandlerOutcome × CacheState :=
  match getProviderInstance registry st (jsOrDefault req.provider) now with
  | .error e => (.loggedErrorNoResponse e, st)
  | .ok (client, st1) =>
    match backend client req with
    | .error e => (.loggedErrorNoResponse e, st1)
    | .ok _ => (.responded req.model, st1)

/-- The three required configuration fields of `readConfigFile`. -/
inductive ReqField where
  | apiKey
  | baseURL
  | modelName
deriving DecidableEq, Repr

/-- The `requiredFields` array of `readConfigFile`, in iteration order. -/
def reqFields : List ReqField := [ReqField.apiKey, ReqField.baseURL, ReqField.modelName]

/-- The per-field resolution loop of `readConfigFile`: a truthy environment
variable wins; otherwise a truthy value already in the (defaults-merged)
config file is kept; otherwise the user is prompted and the answer is used.
`env` and `file` map each required field to its optional value; `answers`
gives the prompt replies. -/
def resolvedField (env file : ReqField → Option String)
    (answers : ReqField → String) (f : ReqField) : String :=
  if truthy (env f) then (env f).getD ""
  else if truthy (file f) then (file f).getD ""
  else answers f

/-- The `needsUpdate` flag of `readConfigFile`: set exactly when some
required field was truthy in neither the environment nor the config file
(and was therefore prompted for). `writeConfigFile` is called if and only if
this is true. -/
def configRewritten (env file : ReqField → Option String) : Bool :=
  reqFields.any (fun f => !truthy (env f) && !truthy (file f))

/-- A caller-facing stream event: the start marker, a content delta carrying
one backend chunk, or the terminal marker. -/
inductive StreamEvent where
  | start
  | delta (chunk : String)
  | terminal
deriving DecidableEq, Repr

/-- Modelled from the spec: `streamOpenAIResponse` (src/utils/stream.ts) is
not among the provided sources, only its call site in the /v1/messages
handler. Following spec section 4.5, the streaming adapter maps a backend
chunk sequence followed by a stop signal to the event sequence start,
one delta per chunk in arrival order, then exactly one terminal event. -/
def adaptStream (chunks : List String) : List StreamEvent :=
  StreamEvent.start :: (chunks.map StreamEvent.delta ++ [StreamEvent.terminal])

/-- Modelled from the spec: the events the adapter has emitted after
consuming the first `k` backend chunks and no stop signal yet — the start
marker and one delta per consumed chunk; the terminal event is only emitted
on the stop signal. -/
def adaptEmitted (chunks : List String) (k : Nat) : List StreamEvent :=
  StreamEvent.start :: (chunks.take k).map StreamEvent.delta

/-- The client record `getProviderInstance` constructs on a cache miss:
fresh identity, the provider record's base URL and key. -/
def freshClient (st : CacheState) (p : ModelProvider) : OpenAIClient :=
  { id := st.nextId, baseURL := p.api_base_url, apiKey := p.api_key }

/-- The cache entry `getProviderInstance` inserts on a cache miss at time t. -/
def freshEntry (st : CacheState) (p : ModelProvider) (t : Nat) : CacheEntry :=
  { key := p.name, client := freshClient st p, start := t }

/-- The cache state after a miss-and-construct in `getProviderInstance` at
time t: the new entry at the most-recently-used position, capacity enforced,
and the identity counter advanced. -/
def freshState (st : CacheState) (p : ModelProvider) (t : Nat) : CacheState :=
  { entries :=
      (freshEntry st p t :: st.entries.filter (fun e => e.key != p.name)).take cacheMax
    nextId := st.nextId + 1 }

/-- A concrete named provider with two models, for concrete instantiations. -/
def sampleProvider : ModelProvider :=
  { name := "p1"
    api_base_url := "https://api.example"
    api_key := "sk-1"
    models := ["m1", "m2"] }

/-- A concrete configuration with the full OPENAI triple, one named
provider, and no Router section. -/
def sampleTripleConfig : Config :=
  { OPENAI_API_KEY := some "sk-0"
    OPENAI_BASE_URL := some "https://base"
    OPENAI_MODEL := some "gpt-x"
    Providers := some [sampleProvider]
    Router := none }

/-- A concrete configuration in which the user answered the three prompts
with empty strings (the triple is present but falsy), with one named
provider and no Router section: the alias path of default registration. -/
def sampleAliasConfig : Config :=
  { OPENAI_API_KEY := some ""
    OPENAI_BASE_URL := some ""
    OPENAI_MODEL := some ""
    Providers := some [sampleProvider]
    Router := none }

/-- The empty client-cache state. -/
def emptyCache : CacheState := { entries := [], nextId := 0 }

/-- A concrete inbound request. -/
def sampleRequest : Request :=
  { model := some "claude-3", provider := none, backgroundFlag := true, thinkFlag := false }

/-- A registry holding only the sample provider. -/
def sampleRegistry : List (String × ModelProvider) := [("p1", sampleProvider)]

/-- The client constructed by the first concrete lookup of the sample
provider from the empty cache. -/
def c8Client1 : OpenAIClient :=
  { id := 0, baseURL := "https://api.example", apiKey := "sk-1" }

/-- The cache state after that first concrete lookup. -/
def c8State1 : CacheState :=
  { entries := [{ key := "p1", client := c8Client1, start := 0 }], nextId := 1 }

/- Helper lemmas about the JavaScript Map embedding. -/

theorem mapGet_cons_self (k : String) (v : ModelProvider)
    (rest : List (String × ModelProvider)) :
    mapGet ((k, v) :: rest) k = some v := by
  simp [mapGet, List.find?]

theorem mapGet_mapSet (m : List (String × ModelProvider)) (k : String)
    (v : ModelProvider) :
    mapGet (mapSet m k v) k = some v := by
  induction m with
  | nil => simp [mapSet, mapGet, List.find?]
  | cons e rest ih =>
    cases he : e.1 == k with
    | true => simp [mapSet, he, mapGet_cons_self]
    | false =>
      simp only [mapSet, he, Bool.false_eq_true, if_false]
      simpa [mapGet, List.find?, he] using ih

theorem mapSet_keyed (m : List (String × ModelProvider)) (k : String)
    (v : ModelProvider) (hv : v.name = k) :
    (∀ e ∈ m, e.2.name = e.1) → ∀ e ∈ mapSet m k v, e.2.name = e.1 := by
  induction m with
  | nil =>
    intro _ x hx
    simp [mapSet] at hx
    subst hx
    exact hv
  | cons a rest ih =>
    intro hm x hx
    cases ha : a.1 == k with
    | true =>
      simp [mapSet, ha] at hx
      rcases hx with hx | hx
      · subst hx; exact hv
      · exact hm x (by simp [hx])
    | false =>
      simp only [mapSet, ha, Bool.false_eq_true, if_false] at hx
      rcases List.mem_cons.mp hx with hx | hx
      · subst hx; exact hm _ (by simp)
      · exact ih (fun e2 he2 => hm e2 (by simp [he2])) x hx

theorem registerConfigProviders_keyed_aux (qs : List ModelProvider) :
    ∀ (m : List (String × ModelProvider)), (∀ e ∈ m, e.2.name = e.1) →
      ∀ e ∈ qs.foldl (fun acc p => mapSet acc p.name p) m, e.2.name = e.1 := by
  induction qs with
  | nil => intro m hm; simpa using hm
  | cons p rest ih =>
    intro m hm
    exact ih (mapSet m p.name p) (mapSet_keyed m p.name p rfl hm)

theorem registerConfigProviders_keyed (c : Config) :
    ∀ e ∈ registerConfigProviders c, e.2.name = e.1 := by
  unfold registerConfigProviders
  cases c.Providers with
  | none => simp
  | some ps => exact registerConfigProviders_keyed_aux ps [] (by simp)

/- Helper lemmas about the client cache embedding. -/

theorem filter_eq_self_of_find?_none (l : List CacheEntry) (k : String)
    (h : l.find? (fun e => e.key == k) = none) :
    l.filter (fun e => e.key != k) = l := by
  rw [List.find?_eq_none] at h
  apply List.filter_eq_self.mpr
  intro a ha
  simpa using h a ha

theorem getProviderInstance_fresh (reg : List (String × ModelProvider))
    (st : CacheState) (n : String) (p : ModelProvider) (t : Nat)
    (hreg : mapGet reg n = some p)
    (hfresh : st.entries.find? (fun e => e.key == p.name) = none) :
    getProviderInstance reg st n t =
      Except.ok (freshClient st p, freshState st p t) := by
  simp [getProviderInstance, hreg, cacheGet, hfresh, cacheSet,
    freshClient, freshEntry, freshState]

theorem find?_freshState (st : CacheState) (p : ModelProvider) (t : Nat) :
    (freshState st p t).entries.find? (fun e => e.key == p.name) =
      some (freshEntry st p t) := by
  have h10 : cacheMax = 9 + 1 := rfl
  show ((freshEntry st p t :: st.entries.filter (fun e => e.key != p.name)).take
    cacheMax).find? (fun e => e.key == p.name) = some (freshEntry st p t)
  rw [h10, List.take_succ_cons]
  exact List.find?_cons_of_pos _ (by simp [freshEntry])

theorem getProviderInstance_hit (reg : List (String × ModelProvider))
    (st : CacheState) (n : String) (p : ModelProvider) (e : CacheEntry) (t : Nat)
    (hreg : mapGet reg n = some p)
    (hfind : st.entries.find? (fun e2 => e2.key == p.name) = some e)
    (hlive : t ≤ e.start + cacheTTL) :
    getProviderInstance reg st n t =
      Except.ok (e.client,
        { st with entries := e :: st.entries.filter (fun e2 => e2.key != p.name) }) := by
  have hstale : isStale t e = false := by
    simp only [isStale, decide_eq_false_iff_not, not_lt]
    omega
  simp [getProviderInstance, hreg, cacheGet, hfind, hstale]

theorem getProviderInstance_stale (reg : List (String × ModelProvider))
    (st : CacheState) (n : String) (p : ModelProvider) (e : CacheEntry) (t : Nat)
    (hreg : mapGet reg n = some p)
    (hfind : st.entries.find? (fun e2 => e2.key == p.name) = some e)
    (hdead : e.start + cacheTTL < t) :
    getProviderInstance reg st n t =
      Except.ok (freshClient st p, freshState st p t) := by
  have hstale : isStale t e = true := by
    simp only [isStale, decide_eq_true_eq]
    omega
  simp [getProviderInstance, hreg, cacheGet, hfind, hstale, cacheSet,
    List.filter_filter, Bool.and_self, freshClient, freshEntry, freshState]

theorem construct_then_hit (reg : List (String × ModelProvider)) (st : CacheState)
    (n1 n2 : String) (p : ModelProvider) (t0 t1 : Nat)
    (h1 : mapGet reg n1 = some p) (h2 : mapGet reg n2 = some p)
    (hfresh : st.entries.find? (fun e => e.key == p.name) = none)
    (hin : t1 ≤ t0 + cacheTTL) :
    ∃ cl st1 st2,
      getProviderInstance reg st n1 t0 = Except.ok (cl, st1) ∧
      getProviderInstance reg st1 n2 t1 = Except.ok (cl, st2) ∧
      st2.nextId = st1.nextId ∧
      cl.id = st.nextId ∧
      st1.nextId = st.nextId + 1 ∧
      st1.entries.find? (fun e => e.key == p.name) = some (freshEntry st p t0) := by
  have hcall1 : getProviderInstance reg st n1 t0 =
      Except.ok (freshClient st p, freshState st p t0) :=
    getProviderInstance_fresh reg st n1 p t0 h1 hfresh
  have hfind1 := find?_freshState st p t0
  have hcall2 : getProviderInstance reg (freshState st p t0) n2 t1 =
      Except.ok (freshClient st p,
        { freshState st p t0 with
            entries := freshEntry st p t0 ::
              (freshState st p t0).entries.filter (fun e2 => e2.key != p.name) }) :=
    getProviderInstance_hit reg (freshState st p t0) n2 p (freshEntry st p t0) t1
      h2 hfind1 (by simpa [freshEntry] using hin)
  exact ⟨freshClient st p, freshState st p t0, _, hcall1, hcall2, rfl, rfl, rfl, hfind1⟩

/-- C1: the claim says a POST /v1/messages request whose provider is not
registered, or whose backend call fails, gets an error response. The code
disagrees: the handler's catch block logs the error to console.error and
never writes to `res`, so no reply of any kind is sent. This theorem
evaluates the embedded handler at both failing inputs: an unregistered
provider name against an empty registry, and a failing backend against a
registered provider. Both runs end in `loggedErrorNoResponse` (logged, no
crash — but no error response either). -/
theorem C1_handler_logs_and_never_replies :
    (postMessagesHandler [] emptyCache
        { sampleRequest with provider := some "p1" }
        (fun _ _ => Except.ok ()) 0).1 =
      HandlerOutcome.loggedErrorNoResponse "Provider p1 not found" ∧
    (postMessagesHandler sampleRegistry emptyCache
        { sampleRequest with provider := some "p1" }
        (fun _ _ => Except.error "ECONNREFUSED") 0).1 =
      HandlerOutcome.loggedErrorNoResponse "ECONNREFUSED" := by
  constructor <;> rfl

/-- C3: default-provider registration is the dual-path rule the spec states,
and it is deterministic because `buildProviders` is a pure function of the
configuration. When the OPENAI triple is fully (truthily) configured, the
name "default" resolves to the provider built from the triple (whose `name`
field is "default"); otherwise, when at least one named provider was
registered, "default" resolves to the value of the first registered entry. -/
theorem C3_default_registration (c : Config) :
    (tripleConfigured c = true →
      mapGet (buildProviders c) "default" = some (defaultTripleProvider c)) ∧
    (tripleConfigured c = false →
      ∀ kv, (registerConfigProviders c).head? = some kv →
        mapGet (buildProviders c) "default" = some kv.2) := by
  constructor
  · intro h
    simp [buildProviders, h, mapGet_mapSet]
  · intro h kv hkv
    simp [buildProviders, h, hkv, mapGet_mapSet]

theorem C3_default_registration_witness :
    (tripleConfigured sampleTripleConfig = true ∧
      mapGet (buildProviders sampleTripleConfig) "default" =
        some (defaultTripleProvider sampleTripleConfig)) ∧
    (tripleConfigured sampleAliasConfig = false ∧
      (registerConfigProviders sampleAliasConfig).head? = some ("p1", sampleProvider) ∧
      mapGet (buildProviders sampleAliasConfig) "default" = some sampleProvider) :=
  ⟨⟨by decide, (C3_default_registration sampleTripleConfig).1 (by decide)⟩,
   ⟨by decide, by decide,
    (C3_default_registration sampleAliasConfig).2 (by decide) ("p1", sampleProvider)
      (by decide)⟩⟩

/-- C5: the streaming adapter (modelled from the spec, since
src/utils/stream.ts is not among the provided sources) maps the backend
chunk sequence to exactly start, one delta per chunk in order, then one
terminal event: the terminal event occurs exactly once, as the last event,
and the events emitted after consuming only the first k chunks depend only
on those k chunks (no event precedes the arrival of its chunk). -/
theorem C5_stream_adapter (chunks : List String) :
    adaptStream chunks =
      [StreamEvent.start] ++ chunks.map StreamEvent.delta ++ [StreamEvent.terminal] ∧
    (adaptStream chunks).count StreamEvent.terminal = 1 ∧
    (adaptStream chunks).getLast? = some StreamEvent.terminal ∧
    ∀ k, adaptEmitted chunks k = adaptEmitted (chunks.take k) k := by
  refine ⟨rfl, ?_, ?_, ?_⟩
  · have hz : (chunks.map StreamEvent.delta).count StreamEvent.terminal = 0 := by
      rw [List.count_eq_zero]
      intro h
      rcases List.mem_map.mp h with ⟨c, _, hc⟩
      exact StreamEvent.noConfusion hc
    simp [adaptStream, List.count_cons, List.count_append, hz]
  · show ((StreamEvent.start :: chunks.map StreamEvent.delta) ++
      [StreamEvent.terminal]).getLast? = some StreamEvent.terminal
    rw [List.getLast?_concat]
  · intro k
    simp [adaptEmitted, List.take_take]

/-- C6: resolving a provider name that is absent from the registry fails
with a thrown not-found error: `getProviderInstance` returns
`Except.error "Provider NAME not found"`, and in particular never a null or
undefined provider value (the success type carries a real client). -/
theorem C6_resolve_missing_is_error (reg : List (String × ModelProvider))
    (st : CacheState) (n : String) (t : Nat)
    (h : mapGet reg n = none) :
    getProviderInstance reg st n t =
      Except.error ("Provider " ++ n ++ " not found") ∧
    ∀ r, getProviderInstance reg st n t ≠ Except.ok r := by
  refine ⟨by simp [getProviderInstance, h], ?_⟩
  intro r hr
  rw [show getProviderInstance reg st n t =
    Except.error ("Provider " ++ n ++ " not found") from by
      simp [getProviderInstance, h]] at hr
  exact Except.noConfusion hr

theorem C6_resolve_missing_witness :
    mapGet sampleRegistry "ghost" = none ∧
    (getProviderInstance sampleRegistry emptyCache "ghost" 0 =
      Except.error ("Provider " ++ "ghost" ++ " not found") ∧
     ∀ r, getProviderInstance sampleRegistry emptyCache "ghost" 0 ≠ Except.ok r) :=
  ⟨by decide, C6_resolve_missing_is_error sampleRegistry emptyCache "ghost" 0 (by decide)⟩

/-- C7: for every configuration the pipeline has the same four stages in the
same fixed order — attach configuration, body rewrite, route, format — and
when the routing rules are incomplete the routing slot is filled by the
trivial default-assigning stage rather than being skipped, so the pipeline
length is always 4. -/
theorem C7_pipeline_shape (c : Config) :
    (middlewareStack c).length = 4 ∧
    middlewareStack c =
      [Stage.attachConfig, Stage.rewriteBody,
        if routerComplete c then Stage.routerStage else Stage.defaultRoute,
        Stage.formatRequest] := by
  constructor <;> cases h : routerComplete c <;> simp [middlewareStack, h]

/-- C10: in readConfigFile, a truthy environment variable takes priority
over the value in the (defaults-merged) config file for each required
field, and writeConfigFile is invoked if and only if some required field
was truthy in neither the environment nor the file (and was prompted for);
otherwise the config file on disk is not rewritten. -/
theorem C10_read_config_priority (env file : ReqField → Option String)
    (answers : ReqField → String) :
    (∀ f, truthy (env f) = true →
      resolvedField env file answers f = (env f).getD "") ∧
    (configRewritten env file = true ↔
      ∃ f, truthy (env f) = false ∧ truthy (file f) = false) := by
  constructor
  · intro f h
    simp [resolvedField, h]
  · rw [configRewritten, List.any_eq_true]
    constructor
    · rintro ⟨f, _, hf⟩
      rw [Bool.and_eq_true, Bool.not_eq_true', Bool.not_eq_true'] at hf
      exact ⟨f, hf⟩
    · rintro ⟨f, h1, h2⟩
      exact ⟨f, by cases f <;> simp [reqFields], by
        rw [Bool.and_eq_true, Bool.not_eq_true', Bool.not_eq_true']
        exact ⟨h1, h2⟩⟩

theorem C10_read_config_witness :
    truthy ((fun _ => (some "from-env" : Option String)) ReqField.apiKey) = true ∧
    resolvedField (fun _ => some "from-env") (fun _ => some "from-file")
        (fun _ => "typed") ReqField.apiKey =
      ((fun _ => (some "from-env" : Option String)) ReqField.apiKey).getD "" :=
  ⟨by decide,
   (C10_read_config_priority (fun _ => some "from-env") (fun _ => some "from-file")
      (fun _ => "typed")).1 ReqField.apiKey (by decide)⟩

/-- C2 (amended): for every configuration in which the three non-default
routing rules are not all present, every request is assigned provider
"default" and its model is set to the configured OPENAI_MODEL value,
regardless of request flags; and whenever additionally the OPENAI triple is
(truthily) configured — the spec scenario — that value is exactly the
default provider's sole configured model. (The original claim fails when
the triple is not truthy and "default" aliases a multi-model named
provider; see the counterexample.) -/
theorem C2_default_route_amended (c : Config) (req : Request)
    (hr : routerComplete c = false) :
    middlewareStack c =
      [Stage.attachConfig, Stage.rewriteBody, Stage.defaultRoute, Stage.formatRequest] ∧
    (defaultRouteMiddleware c req).provider = some "default" ∧
    (defaultRouteMiddleware c req).model = c.OPENAI_MODEL ∧
    (tripleConfigured c = true →
      ∃ m, c.OPENAI_MODEL = some m ∧
        (mapGet (buildProviders c) "default").map ModelProvider.models = some [m]) := by
  refine ⟨by simp [middlewareStack, hr], rfl, rfl, ?_⟩
  intro ht
  obtain ⟨s, hs⟩ : ∃ s, c.OPENAI_MODEL = some s := by
    cases h : c.OPENAI_MODEL with
    | none =>
      exfalso
      simp [tripleConfigured, truthy, h] at ht
    | some s => exact ⟨s, rfl⟩
  exact ⟨s, hs, by simp [buildProviders, ht, mapGet_mapSet, defaultTripleProvider, hs]⟩

/-- C2 counterexample: with the triple present only as empty strings (as
after empty prompt answers), one named provider with two models, and no
Router section, the routing rules are incomplete, so the inline default
middleware runs: it sets the provider to "default" whose registry record
has models m1 and m2 (no sole configured model), and sets the request model
to the empty OPENAI_MODEL — not to any sole model of the default provider. -/
theorem C2_default_route_counterexample :
    routerComplete sampleAliasConfig = false ∧
    (mapGet (buildProviders sampleAliasConfig) "default").map ModelProvider.models =
      some ["m1", "m2"] ∧
    (defaultRouteMiddleware sampleAliasConfig sampleRequest).provider = some "default" ∧
    (defaultRouteMiddleware sampleAliasConfig sampleRequest).model = some "" ∧
    ¬ ∃ m,
        (mapGet (buildProviders sampleAliasConfig) "default").map ModelProvider.models =
          some [m] ∧
        (defaultRouteMiddleware sampleAliasConfig sampleRequest).model = some m := by
  refine ⟨by decide, by decide, by decide, by decide, ?_⟩
  rintro ⟨m, h1, h2⟩
  rw [show (mapGet (buildProviders sampleAliasConfig) "default").map ModelProvider.models =
    some ["m1", "m2"] from by decide] at h1
  simp at h1

theorem C2_default_route_witness :
    routerComplete sampleTripleConfig = false ∧
    tripleConfigured sampleTripleConfig = true ∧
    (middlewareStack sampleTripleConfig =
      [Stage.attachConfig, Stage.rewriteBody, Stage.defaultRoute, Stage.formatRequest] ∧
     (defaultRouteMiddleware sampleTripleConfig sampleRequest).provider = some "default" ∧
     (defaultRouteMiddleware sampleTripleConfig sampleRequest).model =
       sampleTripleConfig.OPENAI_MODEL) ∧
    (∃ m, sampleTripleConfig.OPENAI_MODEL = some m ∧
      (mapGet (buildProviders sampleTripleConfig) "default").map ModelProvider.models =
        some [m]) ∧
    routerComplete sampleAliasConfig = false ∧
    ((defaultRouteMiddleware sampleAliasConfig sampleRequest).provider = some "default" ∧
     (defaultRouteMiddleware sampleAliasConfig sampleRequest).model =
       sampleAliasConfig.OPENAI_MODEL) :=
  ⟨by decide, by decide,
   ⟨(C2_default_route_amended sampleTripleConfig sampleRequest (by decide)).1,
    (C2_default_route_amended sampleTripleConfig sampleRequest (by decide)).2.1,
    (C2_default_route_amended sampleTripleConfig sampleRequest (by decide)).2.2.1⟩,
   (C2_default_route_amended sampleTripleConfig sampleRequest (by decide)).2.2.2
     (by decide),
   by decide,
   ⟨(C2_default_route_amended sampleAliasConfig sampleRequest (by decide)).2.1,
    (C2_default_route_amended sampleAliasConfig sampleRequest (by decide)).2.2.1⟩⟩

/-- C4: once getProviderInstance has constructed and cached a handle for a
registered provider at time t0 (the cache was fresh for that provider), a
lookup at any time t1 within the TTL returns the very same handle instance
and performs no reconstruction (the identity counter does not advance), and
a lookup after the TTL has expired constructs and returns a new handle.
The TTL window is measured from the time the entry was set, as lru-cache
does with updateAgeOnGet at its default. -/
theorem C4_cache_ttl (reg : List (String × ModelProvider)) (st : CacheState)
    (n : String) (p : ModelProvider) (t0 t1 t2 : Nat)
    (hreg : mapGet reg n = some p)
    (hfresh : st.entries.find? (fun e => e.key == p.name) = none)
    (hin : t1 ≤ t0 + cacheTTL)
    (hout : t0 + cacheTTL < t2) :
    ∃ cl st1,
      getProviderInstance reg st n t0 = Except.ok (cl, st1) ∧
      (∃ st2, getProviderInstance reg st1 n t1 = Except.ok (cl, st2) ∧
        st2.nextId = st1.nextId) ∧
      (∃ cl2 st3, getProviderInstance reg st1 n t2 = Except.ok (cl2, st3) ∧
        cl2 ≠ cl) := by
  obtain ⟨cl, st1, st2, hc1, hc2, hn2, hid, hn1, hfind⟩ :=
    construct_then_hit reg st n n p t0 t1 hreg hreg hfresh hin
  refine ⟨cl, st1, hc1, ⟨st2, hc2, hn2⟩,
    freshClient st1 p, freshState st1 p t2,
    getProviderInstance_stale reg st1 n p (freshEntry st p t0) t2 hreg hfind
      (by simpa [freshEntry] using hout), ?_⟩
  intro h
  have hids : (freshClient st1 p).id = cl.id := congrArg OpenAIClient.id h
  rw [show (freshClient st1 p).id = st1.nextId from rfl] at hids
  omega

theorem C4_cache_ttl_witness :
    mapGet sampleRegistry "p1" = some sampleProvider ∧
    (∃ cl st1,
      getProviderInstance sampleRegistry emptyCache "p1" 0 = Except.ok (cl, st1) ∧
      (∃ st2, getProviderInstance sampleRegistry st1 "p1" 1000 = Except.ok (cl, st2) ∧
        st2.nextId = st1.nextId) ∧
      (∃ cl2 st3, getProviderInstance sampleRegistry st1 "p1" 7200001 =
          Except.ok (cl2, st3) ∧
        cl2 ≠ cl)) :=
  ⟨by decide,
   C4_cache_ttl sampleRegistry emptyCache "p1" sampleProvider 0 1000 7200001
     (by decide) (by decide) (by decide) (by decide)⟩

/-- C9: when the OPENAI triple is not (truthily) configured and at least one
named provider exists, "default" aliases the first registered provider
record itself, so its `name` field is the original provider name; because
getProviderInstance keys the cache by that `name` field rather than by the
lookup name, resolving a client for "default" and then for the provider's
own name within the TTL returns the same cached handle with no second
construction. -/
theorem C9_alias_shares_cache (c : Config) (st : CacheState)
    (k0 : String) (v0 : ModelProvider) (t0 t1 : Nat)
    (htriple : tripleConfigured c = false)
    (hhead : (registerConfigProviders c).head? = some (k0, v0))
    (hfresh : st.entries.find? (fun e => e.key == v0.name) = none)
    (hin : t1 ≤ t0 + cacheTTL) :
    v0.name = k0 ∧
    mapGet (buildProviders c) "default" = some v0 ∧
    mapGet (buildProviders c) k0 = some v0 ∧
    ∃ cl st1 st2,
      getProviderInstance (buildProviders c) st "default" t0 = Except.ok (cl, st1) ∧
      getProviderInstance (buildProviders c) st1 k0 t1 = Except.ok (cl, st2) ∧
      st2.nextId = st1.nextId := by
  obtain ⟨rest, hm⟩ : ∃ rest, registerConfigProviders c = (k0, v0) :: rest := by
    cases h : registerConfigProviders c with
    | nil => rw [h] at hhead; exact absurd hhead (by simp)
    | cons a r =>
      rw [h] at hhead
      simp only [List.head?_cons, Option.some.injEq] at hhead
      exact ⟨r, by rw [hhead]⟩
  have hname : v0.name = k0 := by
    have hmem : ((k0, v0) : String × ModelProvider) ∈ registerConfigProviders c := by
      rw [hm]; exact List.mem_cons_self _ _
    simpa using registerConfigProviders_keyed c (k0, v0) hmem
  have hbuild : buildProviders c = mapSet (registerConfigProviders c) "default" v0 := by
    simp [buildProviders, htriple, hhead]
  have hdef : mapGet (buildProviders c) "default" = some v0 := by
    rw [hbuild]; exact mapGet_mapSet _ _ _
  have hk0 : mapGet (buildProviders c) k0 = some v0 := by
    rw [hbuild, hm]
    simp only [mapSet]
    cases hb : (((k0, v0) : String × ModelProvider).1 == "default") with
    | true =>
      simp only [hb, if_true]
      have hke : k0 = "default" := by simpa using hb
      rw [hke]
      exact mapGet_cons_self _ _ _
    | false =>
      simp only [hb, Bool.false_eq_true, if_false]
      exact mapGet_cons_self _ _ _
  obtain ⟨cl, st1, st2, hc1, hc2, hn2, -, -, -⟩ :=
    construct_then_hit (buildProviders c) st "default" k0 v0 t0 t1 hdef hk0 hfresh hin
  exact ⟨hname, hdef, hk0, cl, st1, st2, hc1, hc2, hn2⟩

theorem C9_alias_shares_cache_witness :
    tripleConfigured sampleAliasConfig = false ∧
    (sampleProvider.name = "p1" ∧
     mapGet (buildProviders sampleAliasConfig) "default" = some sampleProvider ∧
     mapGet (buildProviders sampleAliasConfig) "p1" = some sampleProvider ∧
     ∃ cl st1 st2,
       getProviderInstance (buildProviders sampleAliasConfig) emptyCache "default" 0 =
         Except.ok (cl, st1) ∧
       getProviderInstance (buildProviders sampleAliasConfig) st1 "p1" 1000 =
         Except.ok (cl, st2) ∧
       st2.nextId = st1.nextId) :=
  ⟨by decide,
   C9_alias_shares_cache sampleAliasConfig emptyCache "p1" sampleProvider 0 1000
     (by decide) (by decide) (by decide) (by decide)⟩

/- Helper lemmas for the cache invariants. -/

theorem length_filter_lt_of_find? (l : List CacheEntry) (k : String) (e : CacheEntry)
    (h : l.find? (fun x => x.key == k) = some e) :
    (l.filter (fun x => x.key != k)).length < l.length := by
  induction l with
  | nil => simp at h
  | cons a rest ih =>
    cases ha : a.key == k with
    | true =>
      have hdrop : (a.key != k) = false := by simp [bne, ha]
      simp only [List.filter_cons, hdrop, Bool.false_eq_true, if_false, List.length_cons]
      exact Nat.lt_succ_of_le (List.length_filter_le _ _)
    | false =>
      rw [List.find?_cons_of_neg _ (by simp [ha])] at h
      have hkeep : (a.key != k) = true := by simp [bne, ha]
      simp only [List.filter_cons, hkeep, if_true, List.length_cons]
      exact Nat.succ_lt_succ (ih h)

theorem nodup_keys_filter (l : List CacheEntry) (p : CacheEntry → Bool)
    (h : (l.map CacheEntry.key).Nodup) :
    ((l.filter p).map CacheEntry.key).Nodup :=
  ((List.filter_sublist l).map CacheEntry.key).nodup h

theorem nodup_keys_cons_filter (l : List CacheEntry) (k : String) (e : CacheEntry)
    (hek : e.key = k) (h : (l.map CacheEntry.key).Nodup) :
    (((e :: l.filter (fun x => x.key != k)).map CacheEntry.key)).Nodup := by
  rw [List.map_cons, List.nodup_cons]
  refine ⟨?_, nodup_keys_filter l _ h⟩
  intro hmem
  rcases List.mem_map.mp hmem with ⟨x, hx, hxk⟩
  rcases List.mem_filter.mp hx with ⟨-, hxne⟩
  rw [hxk, hek] at hxne
  simp at hxne

theorem nodup_keys_take (l : List CacheEntry) (n : Nat)
    (h : (l.map CacheEntry.key).Nodup) :
    ((l.take n).map CacheEntry.key).Nodup :=
  ((l.take_sublist n).map CacheEntry.key).nodup h

theorem find?_key_of_mem (l : List CacheEntry) (e : CacheEntry)
    (hn : (l.map CacheEntry.key).Nodup) (he : e ∈ l) :
    l.find? (fun x => x.key == e.key) = some e := by
  induction l with
  | nil => simp at he
  | cons a rest ih =>
    rw [List.map_cons, List.nodup_cons] at hn
    rcases List.mem_cons.mp he with rfl | hmem
    · exact List.find?_cons_of_pos _ (by simp)
    · have hfa : (a.key == e.key) = false := by
        rw [beq_eq_false_iff_ne]
        intro hkey
        exact hn.1 (hkey ▸ List.mem_map_of_mem CacheEntry.key hmem)
      rw [List.find?_cons_of_neg _ (by simp [hfa])]
      exact ih hn.2 hmem

theorem cache_inv_preserved (reg : List (String × ModelProvider)) (st : CacheState)
    (n : String) (t : Nat) (cl : OpenAIClient) (st' : CacheState)
    (hlen : st.entries.length ≤ cacheMax)
    (hkeys : (st.entries.map CacheEntry.key).Nodup)
    (hrun : getProviderInstance reg st n t = Except.ok (cl, st')) :
    st'.entries.length ≤ cacheMax ∧ (st'.entries.map CacheEntry.key).Nodup := by
  cases hp : mapGet reg n with
  | none =>
    rw [getProviderInstance, hp] at hrun
    exact absurd hrun (by simp)
  | some p =>
    cases hfind : st.entries.find? (fun e => e.key == p.name) with
    | none =>
      rw [getProviderInstance_fresh reg st n p t hp hfind] at hrun
      simp only [Except.ok.injEq, Prod.mk.injEq] at hrun
      obtain ⟨-, hst⟩ := hrun
      rw [← hst]
      exact ⟨List.length_take_le _ _,
        nodup_keys_take _ _ (nodup_keys_cons_filter st.entries p.name _ rfl hkeys)⟩
    | some e =>
      have hek : e.key = p.name := by
        have := List.find?_some hfind
        simpa using this
      by_cases hts : t ≤ e.start + cacheTTL
      · rw [getProviderInstance_hit reg st n p e t hp hfind hts] at hrun
        simp only [Except.ok.injEq, Prod.mk.injEq] at hrun
        obtain ⟨-, hst⟩ := hrun
        rw [← hst]
        constructor
        · have hlt := length_filter_lt_of_find? st.entries p.name e hfind
          simp only [List.length_cons]
          omega
        · exact nodup_keys_cons_filter st.entries p.name e hek hkeys
      · push_neg at hts
        rw [getProviderInstance_stale reg st n p e t hp hfind hts] at hrun
        simp only [Except.ok.injEq, Prod.mk.injEq] at hrun
        obtain ⟨-, hst⟩ := hrun
        rw [← hst]
        exact ⟨List.length_take_le _ _,
          nodup_keys_take _ _ (nodup_keys_cons_filter st.entries p.name _ rfl hkeys)⟩

theorem cache_stale_not_returned (st : CacheState) (t : Nat)
    (hkeys : (st.entries.map CacheEntry.key).Nodup) :
    ∀ e ∈ st.entries, e.start + cacheTTL < t → (cacheGet st e.key t).1 = none := by
  intro e he hdead
  have hfind := find?_key_of_mem st.entries e hkeys he
  have hstale : isStale t e = true := by
    simp only [isStale, decide_eq_true_eq]
    omega
  simp [cacheGet, hfind, hstale]

theorem cache_lru_eviction (st : CacheState) (t : Nat) (k : String)
    (v : OpenAIClient) (ld : CacheEntry)
    (hkeys : (st.entries.map CacheEntry.key).Nodup)
    (hfull : st.entries.length = cacheMax)
    (hnone : st.entries.find? (fun e => e.key == k) = none)
    (hlast : st.entries.getLast? = some ld) :
    (cacheSet st k v t).entries.length = cacheMax ∧
    ld ∉ (cacheSet st k v t).entries := by
  have hfilter : st.entries.filter (fun e => e.key != k) = st.entries :=
    filter_eq_self_of_find?_none st.entries k hnone
  have hentries : (cacheSet st k v t).entries =
      (({ key := k, client := v, start := t } : CacheEntry) :: st.entries).take cacheMax := by
    simp [cacheSet, hfilter]
  have hne : st.entries ≠ [] := by
    intro h
    rw [h] at hfull
    simp [cacheMax] at hfull
  have hld : st.entries.getLast hne = ld := by
    rw [List.getLast?_eq_getLast _ hne] at hlast
    exact Option.some.injEq _ _ ▸ (by simpa using hlast)
  have hsplit : st.entries.dropLast ++ [ld] = st.entries := by
    rw [← hld]
    exact List.dropLast_concat_getLast hne
  constructor
  · rw [hentries, List.length_take, List.length_cons, hfull]
    simp [cacheMax]
  · rw [hentries]
    have h10 : cacheMax = 9 + 1 := rfl
    rw [h10, List.take_succ_cons]
    have htake : st.entries.take 9 = st.entries.dropLast := by
      rw [List.dropLast_eq_take, hfull]
      rfl
    rw [htake]
    intro hmem
    rcases List.mem_cons.mp hmem with heq | hmem2
    · have : ld.key = k := by rw [heq]
      rw [List.find?_eq_none] at hnone
      have hldmem : ld ∈ st.entries := by
        rw [← hsplit]
        exact List.mem_append_right _ (List.mem_singleton.mpr rfl)
      exact hnone ld hldmem (by simp [this])
    · have hnodup : st.entries.Nodup := hkeys.of_map
      rw [← hsplit] at hnodup
      rcases List.nodup_append.mp hnodup with ⟨-, -, hdisj⟩
      exact hdisj hmem2 (List.mem_singleton.mpr rfl)

/-- C8 (amended): the client cache holds at most one live handle per
provider name (its key list stays duplicate-free) and at most 10 entries,
and both bounds are preserved by every successful getProviderInstance call;
an entry whose fixed 2-hour time-to-live — measured from the time it was
set, regardless of intermediate accesses — has elapsed is never returned
by a cache get; and when the cache is full a set of a new key keeps the
size at the bound by evicting the least-recently-used (last) entry. (The
original claim calls the TTL an idle timeout; the counterexample shows a
recently-used handle is still evicted 2 hours after construction.) -/
theorem C8_cache_bounds (reg : List (String × ModelProvider)) (st : CacheState)
    (n : String) (t : Nat) (cl : OpenAIClient) (st' : CacheState)
    (hlen : st.entries.length ≤ cacheMax)
    (hkeys : (st.entries.map CacheEntry.key).Nodup)
    (hrun : getProviderInstance reg st n t = Except.ok (cl, st')) :
    (st'.entries.length ≤ cacheMax ∧ (st'.entries.map CacheEntry.key).Nodup) ∧
    (∀ e ∈ st.entries, e.start + cacheTTL < t → (cacheGet st e.key t).1 = none) ∧
    (∀ k v ld, st.entries.length = cacheMax →
      st.entries.find? (fun e => e.key == k) = none →
      st.entries.getLast? = some ld →
      (cacheSet st k v t).entries.length = cacheMax ∧
      ld ∉ (cacheSet st k v t).entries) :=
  ⟨cache_inv_preserved reg st n t cl st' hlen hkeys hrun,
   cache_stale_not_returned st t hkeys,
   fun k v ld hfull hnone hlast =>
     cache_lru_eviction st t k v ld hkeys hfull hnone hlast⟩

/-- C8 counterexample: a handle constructed at time 0 and used again at
time 3600000 (one hour in: the cache returns the same handle, so the entry
is anything but idle) is nevertheless gone at time 7200001 — only 3600001
ms after its last use, well within the claimed 2-hour idle window — and a
new handle is constructed: lru-cache measures the TTL from set time, so
the eviction policy is not an idle time-to-live. -/
theorem C8_not_idle_ttl_counterexample :
    ∃ cl0 st1 st2 cl2 st3,
      getProviderInstance sampleRegistry emptyCache "p1" 0 = Except.ok (cl0, st1) ∧
      getProviderInstance sampleRegistry st1 "p1" 3600000 = Except.ok (cl0, st2) ∧
      getProviderInstance sampleRegistry st2 "p1" 7200001 = Except.ok (cl2, st3) ∧
      7200001 - 3600000 ≤ cacheTTL ∧
      cl2 ≠ cl0 :=
  ⟨_, _, _, _, _, rfl, rfl, rfl, by decide, by decide⟩

theorem C8_cache_bounds_witness :
    (emptyCache.entries.length ≤ cacheMax ∧
      (emptyCache.entries.map CacheEntry.key).Nodup) ∧
    (getProviderInstance sampleRegistry emptyCache "p1" 0 =
      Except.ok (c8Client1, c8State1)) ∧
    ((c8State1.entries.length ≤ cacheMax ∧
      (c8State1.entries.map CacheEntry.key).Nodup) ∧
     (∀ e ∈ emptyCache.entries, e.start + cacheTTL < 0 →
       (cacheGet emptyCache e.key 0).1 = none) ∧
     (∀ k v ld, emptyCache.entries.length = cacheMax →
       emptyCache.entries.find? (fun e => e.key == k) = none →
       emptyCache.entries.getLast? = some ld →
       (cacheSet emptyCache k v 0).entries.length = cacheMax ∧
       ld ∉ (cacheSet emptyCache k v 0).entries)) :=
  ⟨⟨by decide, by decide⟩, rfl,
   C8_cache_bounds sampleRegistry emptyCache "p1" 0 c8Client1 c8State1
     (by decide) (by decide) rfl⟩

end ClaudeCodeRouter
